import Mathlib

/-!
# Verification of the MT5Connector command/response multiplexing client

A shallow embedding of `src/mt5-connector.js` (class `MT5Connector`): the
WebSocket client that turns one duplex channel into an asynchronous
request/response API with inferred reply types, timeouts, push events and
automatic reconnection.

Modelling conventions:
* JavaScript values carried in messages are modelled by the inductive `Json`.
* `JSON.parse` of a raw frame is abstracted as `RawFrame`: either a frame
  whose text parses to a `Json` value, or a malformed frame.
* JS `Map` objects (`messageHandlers`, `eventListeners`) are association
  lists with JS `Map` semantics (`set` replaces in place, insertion order
  preserved).
* Externally registered callbacks (feature-module handlers and event
  listeners) are opaque: they are named by numeric ids, and an environment
  function `cbThrows` says whether a given callback throws on a given
  payload.  Invocations are recorded in a trace so that "handler was called
  with the payload" is statable.
* Each `sendMessage` call and each `connect` call is given a ghost numeric
  id naming its promise and (for `sendMessage`) its timeout handle; the ids
  stand for the closure identities of the JS code.
* The single-threaded event loop is modelled by a deterministic `step`
  function over an `Event` type; an execution is a fold of `step` over a
  list of events.  Timer expiry is an event whose occurrence requires the
  timer to still be active (cleared timers never fire), mirroring
  `setTimeout`/`clearTimeout`.
* DOM-only code (`updateConnectionStatus`, `showError`, `console` logging)
  has no effect on the modelled state and is omitted, except that the
  `console.error` of a caught exception is recorded in dispatch traces.
-/

/-- JavaScript values as carried in wire messages. `null` also stands for
`undefined` where the code passes no argument. -/
inductive Json where
  | null : Json
  | bool : Bool → Json
  | num : Int → Json
  | str : String → Json
  | obj : List (String × Json) → Json

/-- Field lookup on a JS object (`o.k`); `none` models `undefined`. -/
def jsonLookup : Json → String → Option Json
  | Json.obj fields, k => (fields.find? (fun p => p.1 = k)).map Prod.snd
  | _, _ => none

/-- JS truthiness of a value. -/
def jsTruthy : Json → Bool
  | Json.null => false
  | Json.bool b => b
  | Json.num n => n ≠ 0
  | Json.str s => s ≠ ""
  | Json.obj _ => true

/-- `message.type` when it is a string (the only case in which it can match
a key of the string-keyed handler/listener tables). -/
def msgTypeStr (j : Json) : Option String :=
  match jsonLookup j "type" with
  | some (Json.str t) => some t
  | _ => none

/-- `message.data || message`: the payload handed to handlers and
listeners in `handleMessage`. -/
def msgPayload (j : Json) : Json :=
  match jsonLookup j "data" with
  | some d => if jsTruthy d then d else j
  | none => j

/-- A raw inbound frame: either its text parses (`JSON.parse` succeeds and
yields `j`) or it is malformed (`JSON.parse` throws). -/
inductive RawFrame where
  | valid : Json → RawFrame
  | malformed : RawFrame

/-- An outbound command: mandatory `action`, the optional `requestTimeout`
override read by `sendMessage`, and the remaining action-specific fields. -/
structure Command where
  action : String
  requestTimeout : Option Nat := none
  fields : List (String × Json) := []

/-- The `responseType` inference chain of `sendMessage`
(src/mt5-connector.js lines 287-300), including the duplicated (dead)
second `optimize_strategy` branch. -/
def inferResponseType (action : String) : String :=
  if action = "parse_strategy" then "strategy_parsed"
  else if action = "run_backtest" then "backtest_result"
  else if action = "load_template" then "template_loaded"
  else if action = "start_conversation" then "conversation_question"
  else if action = "answer_question" then "conversation_question"
  else if action = "generate_final_prompt" then "final_prompt"
  else if action = "optimize_strategy" then "optimization_suggestions"
  else if action = "optimize_strategy" then "optimization_suggestions"
  else if action = "find_confluences" then "confluences_found"
  else if action = "get_templates" then "templates_list"
  else if action = "get_strategies" then "strategies_list"
  else if action = "mtf_analysis" then "mtf_analysis_result"
  else if action = "get_recovery_plan" then "recovery_plan"
  else action ++ "_response"

/-- The per-action default timeout of `sendMessage` (lines 304-307), in
milliseconds. -/
def defaultTimeout (action : String) : Nat :=
  if action = "run_backtest" then 300000
  else if action = "parse_strategy" then 120000
  else if action = "evolve_strategy" then 180000
  else 60000

/-- `data.requestTimeout || defaultTimeout`: JS `||` falls back on any
falsy value, so an explicit `0` also selects the default. -/
def effectiveTimeout (cmd : Command) : Nat :=
  match cmd.requestTimeout with
  | some t => if t = 0 then defaultTimeout cmd.action else t
  | none => defaultTimeout cmd.action

/-- The three rejection errors `sendMessage` can produce, by their message
strings in the source. -/
inductive ConnErr where
  /-- `'Sunucuya bağlı değil'`: rejected because `this.connected` is false. -/
  | notConnected : ConnErr
  /-- `'Mesaj gönderilemedi'`: rejected because `send` returned `false`. -/
  | sendFailed : ConnErr
  /-- `'İstek zaman aşımına uğradı'`: rejected by the timeout callback. -/
  | timedOut : ConnErr
deriving Repr, DecidableEq

/-- The spec's error taxonomy (§7) groups both rejections that stem from
the channel not being open under **NotConnected**; only the timeout
rejection falls outside that class. -/
def ConnErr.isNotConnectedClass : ConnErr → Bool
  | ConnErr.notConnected => true
  | ConnErr.sendFailed => true
  | ConnErr.timedOut => false

/-- State of a `sendMessage` promise.  JS promises settle at most once:
`resolve`/`reject` on a settled promise are no-ops. -/
inductive PromiseState where
  | pending : PromiseState
  | resolved : Json → PromiseState
  | rejected : ConnErr → PromiseState

/-- State of a `connect()` promise. -/
inductive CPromise where
  | pending : CPromise
  | resolvedOk : CPromise
  | rejectedErr : CPromise
deriving Repr, DecidableEq

/-- An entry of the `messageHandlers` map: either an externally registered
persistent handler (named by callback id), or the one-shot waiter closure a
`sendMessage` call registered (named by its call id, remembering the
`responseType` the closure captured). -/
inductive Handler where
  | user : Nat → Handler
  | waiter : Nat → String → Handler
deriving Repr, DecidableEq

/-- An active `setTimeout` handle created by `sendMessage`: the call id,
the captured `responseType` and the delay that was passed. -/
structure SendTimer where
  callId : Nat
  respType : String
  delayMs : Nat
deriving Repr, DecidableEq

/-- One WebSocket object: which `connect()` promise its `onopen` resolves,
and whether its `open`/`close` events have fired (each fires at most once,
and `open` cannot fire after `close`). -/
structure Socket where
  promiseId : Nat
  openFired : Bool
  closeFired : Bool
deriving Repr, DecidableEq

/-- What dispatch did, in order: which callbacks were invoked with which
payload, and where a `console.error` was logged. -/
inductive Invoke where
  | listener : Nat → Json → Invoke
  | handlerCall : Nat → Json → Invoke
  | logError : Invoke

/-- Environment of external behaviour: whether callback `cb` throws when
invoked on a payload, whether `new WebSocket(url)` throws synchronously,
and whether `ws.send` throws inside `send`'s try block. -/
structure Env where
  cbThrows : Nat → Json → Bool
  ctorThrows : Bool
  wsSendThrows : Bool

/-- JS `Map.set`: replace in place if the key exists, else append. -/
def mapSet {α : Type} (m : List (String × α)) (k : String) (v : α) :
    List (String × α) :=
  match m with
  | [] => [(k, v)]
  | (k', v') :: rest =>
      if k' = k then (k, v) :: rest else (k', v') :: mapSet rest k v

/-- JS `Map.get` (`none` models `undefined`; `Map.has` is `isSome`). -/
def mapGet {α : Type} : List (String × α) → String → Option α
  | [], _ => none
  | (k', v) :: rest, k => if k' = k then some v else mapGet rest k

/-- JS `Map.delete`. -/
def mapDelete {α : Type} : List (String × α) → String → List (String × α)
  | [], _ => []
  | (k', v) :: rest, k =>
      if k' = k then mapDelete rest k else (k', v) :: mapDelete rest k

def PromiseState.isPending : PromiseState → Bool
  | PromiseState.pending => true
  | _ => false

def CPromise.isPending : CPromise → Bool
  | CPromise.pending => true
  | _ => false

/-- Settling a `sendMessage` promise: `resolve`/`reject` only take effect
while the promise is pending. -/
def settleCall (m : List (Nat × PromiseState)) (k : Nat) (v : PromiseState) :
    List (Nat × PromiseState) :=
  m.map (fun p => (p.1, if p.1 = k ∧ p.2.isPending then v else p.2))

/-- Settling a `connect` promise. -/
def settleConn (m : List (Nat × CPromise)) (k : Nat) (v : CPromise) :
    List (Nat × CPromise) :=
  m.map (fun p => (p.1, if p.1 = k ∧ p.2.isPending then v else p.2))

/-- The mutable fields of the `MT5Connector` instance, plus the ghost
bookkeeping (promises, timers, sockets) the JS runtime keeps for it. -/
structure ConnState where
  /-- `this.ws`: index into `sockets` of the socket the field points to. -/
  wsField : Option Nat
  /-- `this.connected` -/
  connected : Bool
  /-- `this.reconnectAttempts` -/
  reconnectAttempts : Nat
  /-- `this.maxReconnectAttempts` (5 in the constructor) -/
  maxReconnectAttempts : Nat
  /-- `this.reconnectDelay` (2000 in the constructor) -/
  reconnectDelay : Nat
  /-- `this.messageHandlers` -/
  messageHandlers : List (String × Handler)
  /-- `this.eventListeners` -/
  eventListeners : List (String × List Nat)
  /-- every WebSocket object created so far, in creation order -/
  sockets : List Socket
  /-- state of each `connect()` promise, keyed by ghost id -/
  connectPromises : List (Nat × CPromise)
  /-- state of each `sendMessage` promise, keyed by ghost call id -/
  callPromises : List (Nat × PromiseState)
  /-- active (not yet fired, not cleared) `sendMessage` timeouts -/
  timers : List SendTimer
  /-- delays of reconnections scheduled by `attemptReconnect` and not yet
  executed -/
  pendingReconnects : List Nat
  nextCallId : Nat
  nextConnectId : Nat

/-- The state right after `new MT5Connector()`. -/
def initState : ConnState where
  wsField := none
  connected := false
  reconnectAttempts := 0
  maxReconnectAttempts := 5
  reconnectDelay := 2000
  messageHandlers := []
  eventListeners := []
  sockets := []
  connectPromises := []
  callPromises := []
  timers := []
  pendingReconnects := []
  nextCallId := 0
  nextConnectId := 0

/-- Invoke a list of event-listener callbacks in order (the `forEach` in
`emit`): stops at the first one that throws, reporting the exception. -/
def runListeners (env : Env) (cbs : List Nat) (payload : Json) :
    List Invoke × Bool :=
  match cbs with
  | [] => ([], false)
  | c :: rest =>
      if env.cbThrows c payload then ([Invoke.listener c payload], true)
      else
        let r := runListeners env rest payload
        (Invoke.listener c payload :: r.1, r.2)

/-- `emit(event, data)`: run the listeners registered for `event`, if any.
Returns the invocation trace and whether a listener threw (the exception
propagates out of `emit` to its caller). -/
def emitRun (env : Env) (s : ConnState) (event : String) (payload : Json) :
    List Invoke × Bool :=
  match mapGet s.eventListeners event with
  | some cbs => runListeners env cbs payload
  | none => ([], false)

/-- `handleMessage(data)`: parse, emit the type-named event, then invoke
the registered message handler.  The whole body is inside `try/catch`:
a parse failure or an exception thrown by a listener or handler is caught
and logged.  A waiter handler (the closure registered by `sendMessage`)
clears its timeout, deletes its `responseType` entry and resolves its
promise. -/
def handleMessageRun (env : Env) (s : ConnState) (frame : RawFrame) :
    ConnState × List Invoke :=
  match frame with
  | RawFrame.malformed => (s, [Invoke.logError])
  | RawFrame.valid j =>
      match msgTypeStr j with
      | none => (s, [])
      | some t =>
          let payload := msgPayload j
          let r := emitRun env s t payload
          if r.2 then (s, r.1 ++ [Invoke.logError])
          else
            match mapGet s.messageHandlers t with
            | none => (s, r.1)
            | some (Handler.user cb) =>
                if env.cbThrows cb payload then
                  (s, r.1 ++ [Invoke.handlerCall cb payload, Invoke.logError])
                else (s, r.1 ++ [Invoke.handlerCall cb payload])
            | some (Handler.waiter cid rt) =>
                ({ s with
                    timers := s.timers.filter (fun tm => tm.callId ≠ cid),
                    messageHandlers := mapDelete s.messageHandlers rt,
                    callPromises :=
                      settleCall s.callPromises cid
                        (PromiseState.resolved payload) },
                 r.1)

/-- `send(data)` as a predicate: `false` when not connected or `this.ws`
is null, or when `ws.send` throws inside the try block. -/
def sendOk (env : Env) (s : ConnState) : Bool :=
  s.connected && s.wsField.isSome && !env.wsSendThrows

/-- The synchronous body of `sendMessage(data)`'s promise executor.  The
new call is named by `s.nextCallId`.  Order follows the source: check
`connected`; infer `responseType`; start the timeout; register the waiter
through `on` (replacing any entry for that type); attempt `send`, and on
failure clear the timeout, delete the entry and reject. -/
def sendMessageRun (env : Env) (s : ConnState) (cmd : Command) : ConnState :=
  let cid := s.nextCallId
  if !s.connected then
    { s with
        callPromises :=
          s.callPromises ++ [(cid, PromiseState.rejected ConnErr.notConnected)],
        nextCallId := cid + 1 }
  else
    let rt := inferResponseType cmd.action
    let s1 : ConnState :=
      { s with
          timers := s.timers ++ [⟨cid, rt, effectiveTimeout cmd⟩],
          messageHandlers := mapSet s.messageHandlers rt (Handler.waiter cid rt),
          callPromises := s.callPromises ++ [(cid, PromiseState.pending)],
          nextCallId := cid + 1 }
    if sendOk env s then s1
    else
      { s1 with
          timers := s1.timers.filter (fun tm => tm.callId ≠ cid),
          messageHandlers := mapDelete s1.messageHandlers rt,
          callPromises :=
            settleCall s1.callPromises cid
              (PromiseState.rejected ConnErr.sendFailed) }

/-- A `sendMessage` timeout firing: only possible while the timer is still
active.  The callback deletes whatever entry currently sits at its
captured `responseType` and rejects its promise with the timeout error. -/
def timerFireRun (s : ConnState) (cid : Nat) : ConnState :=
  match s.timers.find? (fun tm => tm.callId = cid) with
  | none => s
  | some tm =>
      { s with
          timers := s.timers.filter (fun t => t.callId ≠ cid),
          messageHandlers := mapDelete s.messageHandlers tm.respType,
          callPromises :=
            settleCall s.callPromises cid
              (PromiseState.rejected ConnErr.timedOut) }

/-- `attemptReconnect()`: at the cap it only logs and shows an error;
otherwise it increments the attempt counter and schedules a `connect()`
after `reconnectDelay * 2^(reconnectAttempts - 1)` ms. -/
def attemptReconnectRun (s : ConnState) : ConnState :=
  if s.maxReconnectAttempts ≤ s.reconnectAttempts then s
  else
    { s with
        reconnectAttempts := s.reconnectAttempts + 1,
        pendingReconnects :=
          s.pendingReconnects ++
            [s.reconnectDelay * 2 ^ (s.reconnectAttempts + 1 - 1)] }

/-- `connect()`: create a fresh promise; `new WebSocket(url)` either
throws synchronously (the catch rejects the promise and `this.ws` keeps
its old value) or yields a new socket that `this.ws` now points to. -/
def connectRun (env : Env) (s : ConnState) : ConnState :=
  let pid := s.nextConnectId
  if env.ctorThrows then
    { s with
        connectPromises := s.connectPromises ++ [(pid, CPromise.rejectedErr)],
        nextConnectId := pid + 1 }
  else
    { s with
        sockets := s.sockets ++ [⟨pid, false, false⟩],
        wsField := some s.sockets.length,
        connectPromises := s.connectPromises ++ [(pid, CPromise.pending)],
        nextConnectId := pid + 1 }

/-- Socket `i`'s `onopen` firing (at most once, never after close): set
`connected`, zero the attempt counter, `emit('connected')` — whose
exception, if any, aborts the callback before `resolve()` — then resolve
this socket's `connect()` promise. -/
def socketOpenRun (env : Env) (s : ConnState) (i : Nat) : ConnState :=
  match s.sockets[i]? with
  | none => s
  | some sck =>
      if sck.openFired || sck.closeFired then s
      else
        let s1 : ConnState :=
          { s with
              sockets := s.sockets.set i { sck with openFired := true },
              connected := true,
              reconnectAttempts := 0 }
        let r := emitRun env s1 "connected" Json.null
        if r.2 then s1
        else
          { s1 with
              connectPromises :=
                settleConn s1.connectPromises sck.promiseId
                  CPromise.resolvedOk }

/-- Socket `i`'s `onclose` firing (at most once): clear `connected`,
`emit('disconnected')` — whose exception, if any, aborts the callback —
then call `attemptReconnect()` unconditionally. -/
def socketCloseRun (env : Env) (s : ConnState) (i : Nat) : ConnState :=
  match s.sockets[i]? with
  | none => s
  | some sck =>
      if sck.closeFired then s
      else
        let s1 : ConnState :=
          { s with
              sockets := s.sockets.set i { sck with closeFired := true },
              connected := false }
        let r := emitRun env s1 "disconnected" Json.null
        if r.2 then s1 else attemptReconnectRun s1

/-- `disconnect()`: if `this.ws` is non-null, request close and null the
field; the socket object survives and its `onclose` fires later as a
separate event. -/
def disconnectRun (s : ConnState) : ConnState :=
  match s.wsField with
  | some _ => { s with wsField := none, connected := false }
  | none => s

/-- `on(type, handler)`: `Map.set`, replacing any entry for `type`. -/
def onRun (s : ConnState) (t : String) (cb : Nat) : ConnState :=
  { s with messageHandlers := mapSet s.messageHandlers t (Handler.user cb) }

/-- `addEventListener(event, callback)`: push onto the per-event list. -/
def addListenerRun (s : ConnState) (e : String) (cb : Nat) : ConnState :=
  { s with
      eventListeners :=
        match mapGet s.eventListeners e with
        | some cbs => mapSet s.eventListeners e (cbs ++ [cb])
        | none => mapSet s.eventListeners e [cb] }

/-- A scheduled reconnection's timer firing: remove it and run
`connect()` (its rejection is only logged). -/
def reconnectTimerRun (env : Env) (s : ConnState) (k : Nat) : ConnState :=
  if k < s.pendingReconnects.length then
    connectRun env { s with pendingReconnects := s.pendingReconnects.eraseIdx k }
  else s

/-- The events the single-threaded event loop can process. -/
inductive Event where
  /-- an external caller invokes `connect()` -/
  | evConnect : Event
  /-- socket `i` signals open -/
  | evOpen : Nat → Event
  /-- socket `i` signals close -/
  | evClose : Nat → Event
  /-- socket `i` signals an error (`onerror` logs and emits only) -/
  | evError : Nat → Json → Event
  /-- a raw frame arrives (`onmessage` → `handleMessage`) -/
  | evRecv : RawFrame → Event
  /-- the `sendMessage` timeout of call `cid` fires -/
  | evTimer : Nat → Event
  /-- the `k`-th pending reconnection timer fires -/
  | evReconnectTimer : Nat → Event
  /-- an external caller invokes `sendMessage(cmd)` -/
  | evSend : Command → Event
  /-- an external caller invokes `on(type, cb)` -/
  | evOn : String → Nat → Event
  /-- an external caller invokes `addEventListener(event, cb)` -/
  | evAddListener : String → Nat → Event
  /-- an external caller invokes `disconnect()` -/
  | evDisconnect : Event

/-- One step of the event loop. -/
def step (env : Env) (s : ConnState) (e : Event) : ConnState :=
  match e with
  | Event.evConnect => connectRun env s
  | Event.evOpen i => socketOpenRun env s i
  | Event.evClose i => socketCloseRun env s i
  | Event.evError _ _ => s
  | Event.evRecv f => (handleMessageRun env s f).1
  | Event.evTimer cid => timerFireRun s cid
  | Event.evReconnectTimer k => reconnectTimerRun env s k
  | Event.evSend cmd => sendMessageRun env s cmd
  | Event.evOn t cb => onRun s t cb
  | Event.evAddListener e' cb => addListenerRun s e' cb
  | Event.evDisconnect => disconnectRun s

/-- Run a list of events. -/
def runEvents (env : Env) (s : ConnState) (es : List Event) : ConnState :=
  es.foldl (step env) s

/-- Lookup in a table keyed by ghost numeric ids. -/
def lookupNat {α : Type} : List (Nat × α) → Nat → Option α
  | [], _ => none
  | (k', v) :: rest, k => if k' = k then some v else lookupNat rest k

/-- The `sendMessage` promise of call `cid`. -/
def getCall (s : ConnState) (cid : Nat) : Option PromiseState :=
  lookupNat s.callPromises cid

/-- The `connect` promise of ghost id `pid`. -/
def getConn (s : ConnState) (pid : Nat) : Option CPromise :=
  lookupNat s.connectPromises pid

/-- Whether the `sendMessage` timeout of call `cid` is still active. -/
def timerActive (s : ConnState) (cid : Nat) : Bool :=
  s.timers.any (fun tm => tm.callId = cid)




theorem mapGet_set_self {α : Type} (m : List (String × α)) (k : String) (v : α) :
    mapGet (mapSet m k v) k = some v := by
  induction m with
  | nil => simp [mapSet, mapGet]
  | cons p rest ih =>
      rcases p with ⟨k', v'⟩
      by_cases h : k' = k
      · simp [mapSet, h, mapGet]
      · simp [mapSet, h, mapGet, ih]

theorem mapGet_set_ne {α : Type} (m : List (String × α)) (k k' : String) (v : α)
    (h : k' ≠ k) : mapGet (mapSet m k v) k' = mapGet m k' := by
  induction m with
  | nil => simp [mapSet, mapGet, Ne.symm h]
  | cons p rest ih =>
      rcases p with ⟨k₀, v₀⟩
      by_cases h0 : k₀ = k
      · subst h0
        simp [mapSet, mapGet, Ne.symm h]
      · simp [mapSet, mapGet, h0, ih]

theorem mapGet_delete_self {α : Type} (m : List (String × α)) (k : String) :
    mapGet (mapDelete m k) k = none := by
  induction m with
  | nil => simp [mapDelete, mapGet]
  | cons p rest ih =>
      rcases p with ⟨k₀, v₀⟩
      by_cases h0 : k₀ = k
      · simpa [mapDelete, mapGet, h0] using ih
      · simpa [mapDelete, mapGet, h0] using ih

theorem mapGet_delete_ne {α : Type} (m : List (String × α)) (k k' : String)
    (h : k' ≠ k) : mapGet (mapDelete m k) k' = mapGet m k' := by
  induction m with
  | nil => simp [mapDelete, mapGet]
  | cons p rest ih =>
      rcases p with ⟨k₀, v₀⟩
      by_cases h0 : k₀ = k
      · subst h0
        simpa [mapDelete, mapGet, Ne.symm h] using ih
      · by_cases h1 : k₀ = k'
        · simp [mapDelete, mapGet, h0, h1, h]
        · simp [mapDelete, mapGet, h0, h1, ih]

theorem lookupNat_settleCall_self (m : List (Nat × PromiseState)) (k : Nat)
    (v : PromiseState) :
    lookupNat (settleCall m k v) k =
      (lookupNat m k).map (fun st => if st.isPending then v else st) := by
  induction m with
  | nil => simp [settleCall, lookupNat]
  | cons p rest ih =>
      rcases p with ⟨k₀, st₀⟩
      by_cases h0 : k₀ = k
      · subst h0
        by_cases hp : st₀.isPending <;> simp [settleCall, lookupNat, hp]
      · simpa [settleCall, lookupNat, h0] using ih

theorem lookupNat_settleCall_ne (m : List (Nat × PromiseState)) (k k' : Nat)
    (v : PromiseState) (h : k' ≠ k) :
    lookupNat (settleCall m k v) k' = lookupNat m k' := by
  induction m with
  | nil => simp [settleCall, lookupNat]
  | cons p rest ih =>
      rcases p with ⟨k₀, st₀⟩
      by_cases h1 : k₀ = k'
      · subst h1
        simp [settleCall, lookupNat, h]
      · simpa [settleCall, lookupNat, h1] using ih

theorem lookupNat_settleConn_self (m : List (Nat × CPromise)) (k : Nat)
    (v : CPromise) :
    lookupNat (settleConn m k v) k =
      (lookupNat m k).map (fun st => if st.isPending then v else st) := by
  induction m with
  | nil => simp [settleConn, lookupNat]
  | cons p rest ih =>
      rcases p with ⟨k₀, st₀⟩
      by_cases h0 : k₀ = k
      · subst h0
        by_cases hp : st₀.isPending <;> simp [settleConn, lookupNat, hp]
      · simpa [settleConn, lookupNat, h0] using ih

theorem lookupNat_settleConn_ne (m : List (Nat × CPromise)) (k k' : Nat)
    (v : CPromise) (h : k' ≠ k) :
    lookupNat (settleConn m k v) k' = lookupNat m k' := by
  induction m with
  | nil => simp [settleConn, lookupNat]
  | cons p rest ih =>
      rcases p with ⟨k₀, st₀⟩
      by_cases h1 : k₀ = k'
      · subst h1
        simp [settleConn, lookupNat, h]
      · simpa [settleConn, lookupNat, h1] using ih

theorem lookupNat_append_left {α : Type} (m₁ m₂ : List (Nat × α)) (k : Nat)
    (v : α) (h : lookupNat m₁ k = some v) :
    lookupNat (m₁ ++ m₂) k = some v := by
  induction m₁ with
  | nil => simp [lookupNat] at h
  | cons p rest ih =>
      rcases p with ⟨k₀, v₀⟩
      by_cases h0 : k₀ = k
      · simp [lookupNat, h0] at h ⊢
        exact h
      · simp [lookupNat, h0] at h ⊢
        exact ih h

theorem lookupNat_append_right {α : Type} (m₁ m₂ : List (Nat × α)) (k : Nat)
    (h : lookupNat m₁ k = none) :
    lookupNat (m₁ ++ m₂) k = lookupNat m₂ k := by
  induction m₁ with
  | nil => simp
  | cons p rest ih =>
      rcases p with ⟨k₀, v₀⟩
      by_cases h0 : k₀ = k
      · simp [lookupNat, h0] at h
      · simp [lookupNat, h0] at h ⊢
        exact ih h

theorem lookupNat_eq_none {α : Type} (m : List (Nat × α)) (k : Nat)
    (h : ∀ p ∈ m, p.1 ≠ k) : lookupNat m k = none := by
  induction m with
  | nil => simp [lookupNat]
  | cons p rest ih =>
      rcases p with ⟨k₀, v₀⟩
      have hk : k₀ ≠ k := h (k₀, v₀) (List.mem_cons_self _ _)
      simp [lookupNat, hk]
      exact ih (fun q hq => h q (List.mem_cons_of_mem _ hq))

/-- A default environment: no callback throws, the constructor and
`ws.send` succeed. -/
def envDefault : Env where
  cbThrows := fun _ _ => false
  ctorThrows := false
  wsSendThrows := false

/-- An environment in which `ws.send` throws, making `send` return
`false`. -/
def envSendFails : Env where
  cbThrows := fun _ _ => false
  ctorThrows := false
  wsSendThrows := true

/-- The `{action: 'ping'}` command. -/
def pingCmd : Command := { action := "ping" }

/-- **C9.** A malformed raw frame (one that fails to parse) is logged and
dropped by `handleMessage` without throwing: the state is unchanged, the
only effect is the `console.error`, and the dispatch of any subsequent
frame is exactly what it would have been without the malformed frame. -/
theorem C9_malformed_frame_logged_and_dropped (env : Env) (s : ConnState)
    (f : RawFrame) :
    handleMessageRun env s RawFrame.malformed = (s, [Invoke.logError]) ∧
    step env s (Event.evRecv RawFrame.malformed) = s ∧
    handleMessageRun env (step env s (Event.evRecv RawFrame.malformed)) f =
      handleMessageRun env s f :=
  ⟨rfl, rfl, rfl⟩

/-- **C5.** A `sendMessage` call while not connected rejects immediately
with the not-connected error and starts no timer (timers and handler
table are untouched); a call for which `send` returns `false` tears the
waiter down at once (no entry remains for the reply type), rejects with
the send-failure error — which falls in the spec's NotConnected class —
and leaves no timeout running (the timer set is exactly what it was
before the call). -/
theorem C5_sendMessage_failure_paths (env : Env) (s : ConnState)
    (cmd : Command)
    (hfreshT : ∀ tm ∈ s.timers, tm.callId ≠ s.nextCallId)
    (hfreshP : lookupNat s.callPromises s.nextCallId = none) :
    (s.connected = false →
      getCall (sendMessageRun env s cmd) s.nextCallId =
        some (PromiseState.rejected ConnErr.notConnected) ∧
      ConnErr.notConnected.isNotConnectedClass = true ∧
      (sendMessageRun env s cmd).timers = s.timers ∧
      (sendMessageRun env s cmd).messageHandlers = s.messageHandlers) ∧
    (s.connected = true → sendOk env s = false →
      getCall (sendMessageRun env s cmd) s.nextCallId =
        some (PromiseState.rejected ConnErr.sendFailed) ∧
      ConnErr.sendFailed.isNotConnectedClass = true ∧
      (sendMessageRun env s cmd).timers = s.timers ∧
      mapGet (sendMessageRun env s cmd).messageHandlers
        (inferResponseType cmd.action) = none) := by
  constructor
  · intro hconn
    have hrun : sendMessageRun env s cmd =
        { s with
            callPromises := s.callPromises ++
              [(s.nextCallId, PromiseState.rejected ConnErr.notConnected)],
            nextCallId := s.nextCallId + 1 } := by
      simp [sendMessageRun, hconn]
    refine ⟨?_, rfl, ?_, ?_⟩
    · rw [hrun]
      show lookupNat (s.callPromises ++
        [(s.nextCallId, PromiseState.rejected ConnErr.notConnected)])
        s.nextCallId = _
      rw [lookupNat_append_right _ _ _ hfreshP]
      simp [lookupNat]
    · rw [hrun]
    · rw [hrun]
  · intro hconn hok
    have hrun : sendMessageRun env s cmd =
        { s with
            timers := (s.timers ++
              [SendTimer.mk s.nextCallId (inferResponseType cmd.action)
                (effectiveTimeout cmd)]).filter
                (fun tm => tm.callId ≠ s.nextCallId),
            messageHandlers :=
              mapDelete (mapSet s.messageHandlers
                (inferResponseType cmd.action)
                (Handler.waiter s.nextCallId (inferResponseType cmd.action)))
                (inferResponseType cmd.action),
            callPromises :=
              settleCall (s.callPromises ++
                [(s.nextCallId, PromiseState.pending)]) s.nextCallId
                (PromiseState.rejected ConnErr.sendFailed),
            nextCallId := s.nextCallId + 1 } := by
      simp [sendMessageRun, hconn, hok]
    have htimers : (s.timers ++
        [SendTimer.mk s.nextCallId (inferResponseType cmd.action)
          (effectiveTimeout cmd)]).filter
        (fun tm => tm.callId ≠ s.nextCallId) = s.timers := by
      rw [List.filter_append]
      have h1 : s.timers.filter (fun tm => tm.callId ≠ s.nextCallId) =
          s.timers :=
        List.filter_eq_self.mpr (fun tm hm => by
          simpa using hfreshT tm hm)
      have h2 : ([SendTimer.mk s.nextCallId (inferResponseType cmd.action)
          (effectiveTimeout cmd)]).filter
          (fun tm => tm.callId ≠ s.nextCallId) = [] := by
        simp
      rw [h1, h2, List.append_nil]
    refine ⟨?_, rfl, ?_, ?_⟩
    · rw [hrun]
      show lookupNat (settleCall (s.callPromises ++
        [(s.nextCallId, PromiseState.pending)]) s.nextCallId
        (PromiseState.rejected ConnErr.sendFailed)) s.nextCallId = _
      rw [lookupNat_settleCall_self,
        lookupNat_append_right _ _ _ hfreshP]
      simp [lookupNat, PromiseState.isPending]
    · rw [hrun]
      exact htimers
    · rw [hrun]
      exact mapGet_delete_self _ _

/-- A connected connector: `connect()` was called and the socket opened. -/
def connState1 : ConnState :=
  runEvents envDefault initState [Event.evConnect, Event.evOpen 0]

theorem C5_sendMessage_failure_paths_witness :
    getCall (sendMessageRun envDefault initState pingCmd) 0 =
      some (PromiseState.rejected ConnErr.notConnected) ∧
    (sendMessageRun envDefault initState pingCmd).timers = initState.timers ∧
    getCall (sendMessageRun envSendFails connState1 pingCmd) 0 =
      some (PromiseState.rejected ConnErr.sendFailed) ∧
    (sendMessageRun envSendFails connState1 pingCmd).timers =
      connState1.timers ∧
    mapGet (sendMessageRun envSendFails connState1 pingCmd).messageHandlers
      "ping_response" = none := by
  have h1 := C5_sendMessage_failure_paths envDefault initState pingCmd
    (by intro tm hm; simp [initState] at hm)
    (by simp [initState, lookupNat])
  have h2 := C5_sendMessage_failure_paths envSendFails connState1 pingCmd
    (by intro tm hm
        rw [show connState1.timers = [] from rfl] at hm
        simp at hm)
    (by rw [show connState1.callPromises = [] from rfl]; rfl)
  have e1 := h1.1 rfl
  have e2 := h2.2 rfl rfl
  exact ⟨e1.1, e1.2.2.1, e2.1, e2.2.2.1, e2.2.2.2⟩

/-- **C7.** A `sendMessage` call issued while connected (with `send`
succeeding) registers a timeout and a waiter for its inferred reply type;
in any later state in which that timeout is still armed and the promise
still pending (no matching inbound message arrived in the window), the
timeout firing rejects the promise with the timeout error, and afterwards
the waiter table holds no entry for that reply type and the timer is
gone. -/
theorem C7_timeout_rejects_and_clears_table (env : Env) (s : ConnState)
    (cmd : Command) (s2 : ConnState)
    (hconn : s.connected = true) (hok : sendOk env s = true)
    (hfind : s2.timers.find? (fun tm => tm.callId = s.nextCallId) =
      some (SendTimer.mk s.nextCallId (inferResponseType cmd.action)
        (effectiveTimeout cmd)))
    (hpend : getCall s2 s.nextCallId = some PromiseState.pending) :
    timerActive (sendMessageRun env s cmd) s.nextCallId = true ∧
    mapGet (sendMessageRun env s cmd).messageHandlers
      (inferResponseType cmd.action) =
      some (Handler.waiter s.nextCallId (inferResponseType cmd.action)) ∧
    getCall (timerFireRun s2 s.nextCallId) s.nextCallId =
      some (PromiseState.rejected ConnErr.timedOut) ∧
    mapGet (timerFireRun s2 s.nextCallId).messageHandlers
      (inferResponseType cmd.action) = none ∧
    timerActive (timerFireRun s2 s.nextCallId) s.nextCallId = false := by
  refine ⟨?_, ?_, ?_, ?_, ?_⟩
  · simp [sendMessageRun, hconn, hok, timerActive]
  · simp [sendMessageRun, hconn, hok, mapGet_set_self]
  · unfold timerFireRun
    rw [hfind]
    show lookupNat (settleCall s2.callPromises s.nextCallId
      (PromiseState.rejected ConnErr.timedOut)) s.nextCallId = _
    rw [lookupNat_settleCall_self]
    rw [show lookupNat s2.callPromises s.nextCallId =
      some PromiseState.pending from hpend]
    simp [PromiseState.isPending]
  · unfold timerFireRun
    rw [hfind]
    exact mapGet_delete_self _ _
  · unfold timerFireRun
    rw [hfind]
    simp [timerActive, List.any_eq_true, List.mem_filter]

theorem C7_timeout_rejects_and_clears_table_witness :
    getCall (timerFireRun (sendMessageRun envDefault connState1 pingCmd) 0)
      0 = some (PromiseState.rejected ConnErr.timedOut) ∧
    mapGet (timerFireRun (sendMessageRun envDefault connState1 pingCmd)
      0).messageHandlers "ping_response" = none := by
  have h := C7_timeout_rejects_and_clears_table envDefault connState1
    pingCmd (sendMessageRun envDefault connState1 pingCmd) rfl rfl rfl rfl
  exact ⟨h.2.2.1, h.2.2.2.1⟩

theorem step_preserves_consts (env : Env) (s : ConnState) (e : Event) :
    (step env s e).maxReconnectAttempts = s.maxReconnectAttempts ∧
    (step env s e).reconnectDelay = s.reconnectDelay ∧
    s.nextCallId ≤ (step env s e).nextCallId := by
  cases e <;>
    simp only [step, connectRun, socketOpenRun, socketCloseRun,
      timerFireRun, reconnectTimerRun, sendMessageRun, onRun,
      addListenerRun, disconnectRun, attemptReconnectRun,
      handleMessageRun] <;>
    (repeat' split) <;> simp_all

theorem step_attempts_le (env : Env) (s : ConnState) (e : Event)
    (h : s.reconnectAttempts ≤ s.maxReconnectAttempts) :
    (step env s e).reconnectAttempts ≤ (step env s e).maxReconnectAttempts := by
  cases e <;>
    simp only [step, connectRun, socketOpenRun, socketCloseRun,
      timerFireRun, reconnectTimerRun, sendMessageRun, onRun,
      addListenerRun, disconnectRun, attemptReconnectRun,
      handleMessageRun] <;>
    (repeat' split) <;> simp_all <;> omega

theorem step_attempts_no_open (env : Env) (s : ConnState) (e : Event)
    (h : ∀ i, e ≠ Event.evOpen i) :
    (step env s e).reconnectAttempts = s.reconnectAttempts ∨
      ((step env s e).reconnectAttempts = s.reconnectAttempts + 1 ∧
        s.reconnectAttempts < s.maxReconnectAttempts) := by
  cases e with
  | evOpen i => exact absurd rfl (h i)
  | _ =>
      first
      | (left; rfl)
      | (simp only [step, connectRun, socketCloseRun, timerFireRun,
          reconnectTimerRun, sendMessageRun, onRun, addListenerRun,
          disconnectRun, attemptReconnectRun, handleMessageRun] <;>
         (repeat' split) <;> simp_all <;> omega)

theorem runEvents_consts (env : Env) (s : ConnState) (es : List Event) :
    (runEvents env s es).maxReconnectAttempts = s.maxReconnectAttempts ∧
    (runEvents env s es).reconnectDelay = s.reconnectDelay := by
  induction es generalizing s with
  | nil => exact ⟨rfl, rfl⟩
  | cons e es ih =>
      have h := step_preserves_consts env s e
      have h2 := ih (step env s e)
      exact ⟨h2.1.trans h.1, h2.2.trans h.2.1⟩

theorem runEvents_attempts_le (env : Env) (s : ConnState) (es : List Event)
    (h : s.reconnectAttempts ≤ s.maxReconnectAttempts) :
    (runEvents env s es).reconnectAttempts ≤
      (runEvents env s es).maxReconnectAttempts := by
  induction es generalizing s with
  | nil => exact h
  | cons e es ih => exact ih (step env s e) (step_attempts_le env s e h)

/-- The number of reconnection attempts `attemptReconnect` schedules along
a run: on each step the counter rises by one exactly when an attempt is
scheduled (and, absent a successful open, never falls). -/
def schedCount (env : Env) : ConnState → List Event → Nat
  | _, [] => 0
  | s, e :: es =>
      ((step env s e).reconnectAttempts - s.reconnectAttempts) +
        schedCount env (step env s e) es

theorem runEvents_attempts_schedCount (env : Env) (s : ConnState)
    (es : List Event) (hnoopen : ∀ i, Event.evOpen i ∉ es) :
    (runEvents env s es).reconnectAttempts =
      s.reconnectAttempts + schedCount env s es := by
  induction es generalizing s with
  | nil => rfl
  | cons e es ih =>
      have hne : ∀ i, e ≠ Event.evOpen i := by
        intro i he
        exact hnoopen i (he ▸ List.mem_cons_self _ _)
      have hstep := step_attempts_no_open env s e hne
      have hrest := ih (step env s e)
        (fun i hm => hnoopen i (List.mem_cons_of_mem _ hm))
      show (runEvents env (step env s e) es).reconnectAttempts = _
      rw [hrest, schedCount]
      rcases hstep with h | ⟨h, _⟩ <;> rw [h] <;> omega

theorem runListeners_nothrow (env : Env) (cbs : List Nat) (payload : Json)
    (h : ∀ cb ∈ cbs, env.cbThrows cb payload = false) :
    (runListeners env cbs payload).2 = false := by
  induction cbs with
  | nil => rfl
  | cons c rest ih =>
      have hc : env.cbThrows c payload = false :=
        h c (List.mem_cons_self _ _)
      simp only [runListeners, hc]
      simpa using ih (fun cb hm => h cb (List.mem_cons_of_mem _ hm))

/-- **C3.** The reconnection budget: along any run without a successful
open, the number of reconnection attempts scheduled never exceeds the
remaining budget — in particular, starting from a fresh counter it never
exceeds `maxReconnectAttempts`, which the constructor sets to 5; when an
unexpected close is processed below the cap, the attempt counter becomes
`n = old + 1` and the scheduled delay is exactly
`reconnectDelay * 2 ^ (n - 1)` (2000 ms base from the constructor); at the
cap no further attempt is scheduled; and a successful open resets the
counter to zero. -/
theorem C3_reconnect_budget_and_backoff (env : Env) (s : ConnState)
    (es : List Event) (i : Nat) (sck : Socket)
    (hmax : s.reconnectAttempts ≤ s.maxReconnectAttempts)
    (hnoopen : ∀ n, Event.evOpen n ∉ es)
    (hsock : s.sockets[i]? = some sck)
    (hnotclosed : sck.closeFired = false)
    (hnothrow : ∀ cbs, mapGet s.eventListeners "disconnected" = some cbs →
      ∀ cb ∈ cbs, env.cbThrows cb Json.null = false) :
    schedCount env s es + s.reconnectAttempts ≤ s.maxReconnectAttempts ∧
    (s.reconnectAttempts = 0 →
      schedCount env s es ≤ s.maxReconnectAttempts) ∧
    initState.maxReconnectAttempts = 5 ∧
    initState.reconnectDelay = 2000 ∧
    (s.reconnectAttempts < s.maxReconnectAttempts →
      (step env s (Event.evClose i)).reconnectAttempts =
        s.reconnectAttempts + 1 ∧
      (step env s (Event.evClose i)).pendingReconnects =
        s.pendingReconnects ++
          [s.reconnectDelay * 2 ^ (s.reconnectAttempts + 1 - 1)]) ∧
    (s.maxReconnectAttempts ≤ s.reconnectAttempts →
      (step env s (Event.evClose i)).pendingReconnects =
        s.pendingReconnects) ∧
    (sck.openFired = false →
      (step env s (Event.evOpen i)).reconnectAttempts = 0) := by
  have hclose : step env s (Event.evClose i) =
      attemptReconnectRun
        { s with
            sockets := s.sockets.set i { sck with closeFired := true },
            connected := false } := by
    simp only [step, socketCloseRun, hsock, hnotclosed]
    simp only [Bool.false_eq_true, if_false]
    cases hmg : mapGet s.eventListeners "disconnected" with
    | none => simp [emitRun, hmg, runListeners]
    | some cbs =>
        have hnt := runListeners_nothrow env cbs Json.null
          (hnothrow cbs hmg)
        simp [emitRun, hmg, hnt]
  refine ⟨?_, ?_, rfl, rfl, ?_, ?_, ?_⟩
  · have hsched := runEvents_attempts_schedCount env s es hnoopen
    have hle := runEvents_attempts_le env s es hmax
    have hc := runEvents_consts env s es
    omega
  · intro h0
    have hsched := runEvents_attempts_schedCount env s es hnoopen
    have hle := runEvents_attempts_le env s es hmax
    have hc := runEvents_consts env s es
    omega
  · intro hlt
    rw [hclose]
    have hng : ¬ s.maxReconnectAttempts ≤ s.reconnectAttempts := by omega
    simp [attemptReconnectRun, hng]
  · intro hge
    rw [hclose]
    simp [attemptReconnectRun, hge]
  · intro hopen
    simp only [step, socketOpenRun, hsock, hopen, hnotclosed, Bool.or_self,
      Bool.false_eq_true, if_false]
    split <;> rfl

theorem C3_reconnect_budget_and_backoff_witness :
    schedCount envDefault connState1 [Event.evClose 0] ≤ 5 ∧
    (step envDefault connState1 (Event.evClose 0)).reconnectAttempts = 1 ∧
    (step envDefault connState1 (Event.evClose 0)).pendingReconnects =
      [2000] := by
  have h := C3_reconnect_budget_and_backoff envDefault connState1
    [Event.evClose 0] 0 (Socket.mk 0 true false)
    (by decide)
    (by intro n hm; simp at hm)
    rfl rfl
    (by intro cbs hcbs
        rw [show mapGet connState1.eventListeners "disconnected" = none
          from rfl] at hcbs
        cases hcbs)
  have h5 := h.2.2.2.2.1 (by decide)
  exact ⟨h.2.1 rfl, h5.1, h5.2⟩

/-- **C2 counterexample.** From a connected state, `disconnect()` followed
by the resulting close event leaves the connector with one reconnection
attempt consumed and a 2000 ms reconnect scheduled: `attemptReconnect`
*is* invoked as a consequence of an explicit disconnect, because `onclose`
calls it unconditionally and `disconnect()` sets no suppression flag. -/
theorem C2_explicit_disconnect_reconnects :
    (runEvents envDefault initState
      [Event.evConnect, Event.evOpen 0, Event.evDisconnect,
        Event.evClose 0]).reconnectAttempts = 1 ∧
    (runEvents envDefault initState
      [Event.evConnect, Event.evOpen 0, Event.evDisconnect,
        Event.evClose 0]).pendingReconnects = [2000] :=
  ⟨rfl, rfl⟩

/-- **C2 (amended).** `disconnect()` closes the channel if open (nulling
`this.ws`), transitions to the disconnected state, and is idempotent; but
the close event resulting from the explicit disconnect is *not*
suppressed: processing it still calls `attemptReconnect`, which (below
the cap) increments the attempt counter and schedules a backoff retry. -/
theorem C2_disconnect_closes_but_does_not_suppress (env : Env)
    (s : ConnState) (i : Nat) (sck : Socket)
    (hws : s.wsField = some i)
    (hsock : s.sockets[i]? = some sck)
    (hnotclosed : sck.closeFired = false)
    (hbelow : s.reconnectAttempts < s.maxReconnectAttempts)
    (hnothrow : ∀ cbs, mapGet s.eventListeners "disconnected" = some cbs →
      ∀ cb ∈ cbs, env.cbThrows cb Json.null = false) :
    (disconnectRun s).wsField = none ∧
    (disconnectRun s).connected = false ∧
    disconnectRun (disconnectRun s) = disconnectRun s ∧
    (step env (disconnectRun s) (Event.evClose i)).reconnectAttempts =
      s.reconnectAttempts + 1 ∧
    (step env (disconnectRun s) (Event.evClose i)).pendingReconnects =
      s.pendingReconnects ++
        [s.reconnectDelay * 2 ^ (s.reconnectAttempts + 1 - 1)] := by
  have hd : disconnectRun s = { s with wsField := none, connected := false } := by
    simp [disconnectRun, hws]
  have hd2 : disconnectRun (disconnectRun s) = disconnectRun s := by
    rw [hd]
    simp [disconnectRun]
  have hclose : step env (disconnectRun s) (Event.evClose i) =
      attemptReconnectRun
        { s with
            wsField := none,
            sockets := s.sockets.set i { sck with closeFired := true },
            connected := false } := by
    rw [hd]
    simp only [step, socketCloseRun, hsock, hnotclosed]
    simp only [Bool.false_eq_true, if_false]
    cases hmg : mapGet s.eventListeners "disconnected" with
    | none => simp [emitRun, hmg, runListeners]
    | some cbs =>
        have hnt := runListeners_nothrow env cbs Json.null
          (hnothrow cbs hmg)
        simp [emitRun, hmg, hnt]
  refine ⟨by rw [hd], by rw [hd], hd2, ?_, ?_⟩
  · rw [hclose]
    have hng : ¬ s.maxReconnectAttempts ≤ s.reconnectAttempts := by omega
    simp [attemptReconnectRun, hng]
  · rw [hclose]
    have hng : ¬ s.maxReconnectAttempts ≤ s.reconnectAttempts := by omega
    simp [attemptReconnectRun, hng]

theorem C2_disconnect_closes_but_does_not_suppress_witness :
    (disconnectRun connState1).wsField = none ∧
    (step envDefault (disconnectRun connState1)
      (Event.evClose 0)).reconnectAttempts = 1 := by
  have h := C2_disconnect_closes_but_does_not_suppress envDefault connState1
    0 (Socket.mk 0 true false) rfl rfl rfl (by decide)
    (by intro cbs hcbs
        rw [show mapGet connState1.eventListeners "disconnected" = none
          from rfl] at hcbs
        cases hcbs)
  exact ⟨h.1, h.2.2.2.1⟩

/-- The example command `{action: 'get_account_data', account_id: 'a1'}`. -/
def gadCmd : Command :=
  { action := "get_account_data",
    fields := [("account_id", Json.str "a1")] }

/-- **C4 counterexample.** A persistent subscription registered with
`on('get_account_data_response', cb₇)` is replaced by the waiter that a
subsequent `sendMessage({action: 'get_account_data', ...})` registers for
the same inferred reply type, and after that call's timeout fires the
table entry is deleted outright: the subscription did not survive the
`sendMessage` call. -/
theorem C4_subscription_replaced_by_sendMessage :
    mapGet (runEvents envDefault initState
      [Event.evConnect, Event.evOpen 0,
        Event.evOn "get_account_data_response" 7,
        Event.evSend gadCmd]).messageHandlers "get_account_data_response" =
      some (Handler.waiter 0 "get_account_data_response") ∧
    mapGet (runEvents envDefault initState
      [Event.evConnect, Event.evOpen 0,
        Event.evOn "get_account_data_response" 7,
        Event.evSend gadCmd]).messageHandlers "get_account_data_response" ≠
      some (Handler.user 7) ∧
    mapGet (runEvents envDefault initState
      [Event.evConnect, Event.evOpen 0,
        Event.evOn "get_account_data_response" 7,
        Event.evSend gadCmd, Event.evTimer 0]).messageHandlers
      "get_account_data_response" = none :=
  ⟨rfl, by decide, rfl⟩

/-- **C4 (amended).** A subscription registered through `on(type, handler)`
persists only until another registration for the same type replaces it: a
`sendMessage` whose inferred reply type equals the subscription's type
overwrites it with the call's waiter, and a `sendMessage` timeout whose
captured reply type equals the subscription's type deletes the entry.
Under `sendMessage` traffic whose inferred reply types differ from the
subscription's type, the subscription is untouched. -/
theorem C4_subscription_persistence_scope (env : Env) (s : ConnState)
    (cmd : Command) (t : String) (cb : Nat)
    (hsub : mapGet s.messageHandlers t = some (Handler.user cb)) :
    (s.connected = true → sendOk env s = true →
      inferResponseType cmd.action = t →
      mapGet (sendMessageRun env s cmd).messageHandlers t =
        some (Handler.waiter s.nextCallId t)) ∧
    (inferResponseType cmd.action ≠ t →
      mapGet (sendMessageRun env s cmd).messageHandlers t =
        some (Handler.user cb)) ∧
    (∀ cid d, s.timers.find? (fun tm => tm.callId = cid) =
        some (SendTimer.mk cid t d) →
      mapGet (timerFireRun s cid).messageHandlers t = none) ∧
    (∀ cid rt d, s.timers.find? (fun tm => tm.callId = cid) =
        some (SendTimer.mk cid rt d) → rt ≠ t →
      mapGet (timerFireRun s cid).messageHandlers t =
        some (Handler.user cb)) := by
  refine ⟨?_, ?_, ?_, ?_⟩
  · intro hconn hok hrt
    simp only [sendMessageRun, hconn, hok, Bool.not_true,
      Bool.false_eq_true, if_false, if_true, hrt]
    exact mapGet_set_self _ _ _
  · intro hrt
    by_cases hconn : s.connected
    · by_cases hok : sendOk env s
      · simp only [sendMessageRun, hconn, hok, Bool.not_true,
          Bool.false_eq_true, if_false, if_true]
        rw [mapGet_set_ne _ _ _ _ (fun h => hrt h.symm)]
        exact hsub
      · simp only [sendMessageRun, hconn, hok, Bool.not_true,
          Bool.false_eq_true, if_false, if_true]
        rw [mapGet_delete_ne _ _ _ (fun h => hrt h.symm),
          mapGet_set_ne _ _ _ _ (fun h => hrt h.symm)]
        exact hsub
    · simp only [sendMessageRun, hconn, Bool.not_false, if_true]
      exact hsub
  · intro cid d hfind
    unfold timerFireRun
    rw [hfind]
    exact mapGet_delete_self _ _
  · intro cid rt d hfind hne
    unfold timerFireRun
    rw [hfind]
    rw [mapGet_delete_ne _ _ _ (fun h => hne h.symm)]
    exact hsub

/-- A connected connector with a persistent subscription (callback 7) for
`get_account_data_response`. -/
def subState : ConnState :=
  runEvents envDefault initState
    [Event.evConnect, Event.evOpen 0,
      Event.evOn "get_account_data_response" 7]

theorem C4_subscription_persistence_scope_witness :
    mapGet (sendMessageRun envDefault subState gadCmd).messageHandlers
      "get_account_data_response" =
      some (Handler.waiter 0 "get_account_data_response") ∧
    mapGet (sendMessageRun envDefault subState pingCmd).messageHandlers
      "get_account_data_response" = some (Handler.user 7) := by
  have h1 := C4_subscription_persistence_scope envDefault subState gadCmd
    "get_account_data_response" 7 rfl
  have h2 := C4_subscription_persistence_scope envDefault subState pingCmd
    "get_account_data_response" 7 rfl
  exact ⟨h1.1 rfl rfl rfl, h2.2.1 (by decide)⟩

theorem lookupNat_settleCall_not_pending (m : List (Nat × PromiseState))
    (k cid : Nat) (v st : PromiseState)
    (h : lookupNat m cid = some st) (hnp : st.isPending = false) :
    lookupNat (settleCall m k v) cid = some st := by
  by_cases hk : cid = k
  · subst hk
    rw [lookupNat_settleCall_self, h]
    simp [hnp]
  · rw [lookupNat_settleCall_ne _ _ _ _ hk]
    exact h

/-- A settled `sendMessage` promise is never settled again: every event
preserves its value (resolve/reject on a non-pending promise are
no-ops). -/
theorem getCall_step_settled (env : Env) (s : ConnState) (e : Event)
    (cid : Nat) (st : PromiseState)
    (h : getCall s cid = some st) (hnp : st.isPending = false) :
    getCall (step env s e) cid = some st := by
  cases e <;>
    simp only [step, connectRun, socketOpenRun, socketCloseRun,
      timerFireRun, reconnectTimerRun, sendMessageRun, onRun,
      addListenerRun, disconnectRun, attemptReconnectRun,
      handleMessageRun] <;>
    (repeat' split) <;>
    first
      | exact h
      | exact lookupNat_settleCall_not_pending _ _ _ _ _ h hnp
      | exact lookupNat_append_left _ _ _ _ h
      | exact lookupNat_settleCall_not_pending _ _ _ _ _
          (lookupNat_append_left _ _ _ _ h) hnp

theorem getCall_runEvents_settled (env : Env) (s : ConnState)
    (es : List Event) (cid : Nat) (st : PromiseState)
    (h : getCall s cid = some st) (hnp : st.isPending = false) :
    getCall (runEvents env s es) cid = some st := by
  induction es generalizing s with
  | nil => exact h
  | cons e es ih =>
      exact ih (step env s e) (getCall_step_settled env s e cid st h hnp)

/-- **C6.** A `sendMessage` call issued while connected whose matching
inbound message (type equal to the inferred reply type) arrives while the
waiter is armed resolves with exactly that message's payload
(`message.data || message`); the timeout is cancelled, the waiter entry
is removed, and no later event — in particular not the already-cleared
timer — can change the resolved value (no late rejection). -/
theorem C6_reply_resolves_with_payload (env : Env) (s : ConnState)
    (cmd : Command) (j : Json)
    (hconn : s.connected = true) (hok : sendOk env s = true)
    (hfreshP : lookupNat s.callPromises s.nextCallId = none)
    (htype : msgTypeStr j = some (inferResponseType cmd.action))
    (hnl : mapGet s.eventListeners (inferResponseType cmd.action) = none) :
    getCall ((handleMessageRun env (sendMessageRun env s cmd)
        (RawFrame.valid j)).1) s.nextCallId =
      some (PromiseState.resolved (msgPayload j)) ∧
    timerActive ((handleMessageRun env (sendMessageRun env s cmd)
        (RawFrame.valid j)).1) s.nextCallId = false ∧
    mapGet ((handleMessageRun env (sendMessageRun env s cmd)
        (RawFrame.valid j)).1).messageHandlers
      (inferResponseType cmd.action) = none ∧
    (∀ es, getCall (runEvents env ((handleMessageRun env
        (sendMessageRun env s cmd) (RawFrame.valid j)).1) es)
        s.nextCallId = some (PromiseState.resolved (msgPayload j))) := by
  have hrun : sendMessageRun env s cmd =
      { s with
          timers := s.timers ++
            [SendTimer.mk s.nextCallId (inferResponseType cmd.action)
              (effectiveTimeout cmd)],
          messageHandlers := mapSet s.messageHandlers
            (inferResponseType cmd.action)
            (Handler.waiter s.nextCallId (inferResponseType cmd.action)),
          callPromises := s.callPromises ++
            [(s.nextCallId, PromiseState.pending)],
          nextCallId := s.nextCallId + 1 } := by
    simp [sendMessageRun, hconn, hok]
  have hkey : (handleMessageRun env (sendMessageRun env s cmd)
      (RawFrame.valid j)).1 =
      { s with
          timers := (s.timers ++
            [SendTimer.mk s.nextCallId (inferResponseType cmd.action)
              (effectiveTimeout cmd)]).filter
            (fun tm => tm.callId ≠ s.nextCallId),
          messageHandlers := mapDelete (mapSet s.messageHandlers
            (inferResponseType cmd.action)
            (Handler.waiter s.nextCallId (inferResponseType cmd.action)))
            (inferResponseType cmd.action),
          callPromises := settleCall (s.callPromises ++
            [(s.nextCallId, PromiseState.pending)]) s.nextCallId
            (PromiseState.resolved (msgPayload j)),
          nextCallId := s.nextCallId + 1 } := by
    rw [hrun]
    simp only [handleMessageRun, htype, emitRun, hnl, mapGet_set_self,
      Bool.false_eq_true, if_false]
  have hres : getCall ((handleMessageRun env (sendMessageRun env s cmd)
      (RawFrame.valid j)).1) s.nextCallId =
      some (PromiseState.resolved (msgPayload j)) := by
    rw [hkey]
    show lookupNat (settleCall (s.callPromises ++
      [(s.nextCallId, PromiseState.pending)]) s.nextCallId
      (PromiseState.resolved (msgPayload j))) s.nextCallId = _
    rw [lookupNat_settleCall_self,
      lookupNat_append_right _ _ _ hfreshP]
    simp [lookupNat, PromiseState.isPending]
  refine ⟨hres, ?_, ?_, ?_⟩
  · rw [hkey]
    simp [timerActive, List.any_eq_true, List.mem_filter]
  · rw [hkey]
    exact mapGet_delete_self _ _
  · intro es
    exact getCall_runEvents_settled env _ es s.nextCallId _ hres rfl

/-- The spec's example reply frame
`{type: 'get_account_data_response', data: {balance: 1000}}`. -/
def gadReply : Json :=
  Json.obj [("type", Json.str "get_account_data_response"),
    ("data", Json.obj [("balance", Json.num 1000)])]

theorem C6_reply_resolves_with_payload_witness :
    getCall ((handleMessageRun envDefault
        (sendMessageRun envDefault connState1 gadCmd)
        (RawFrame.valid gadReply)).1) 0 =
      some (PromiseState.resolved (Json.obj [("balance", Json.num 1000)])) ∧
    timerActive ((handleMessageRun envDefault
        (sendMessageRun envDefault connState1 gadCmd)
        (RawFrame.valid gadReply)).1) 0 = false := by
  have h := C6_reply_resolves_with_payload envDefault connState1 gadCmd
    gadReply rfl rfl rfl rfl rfl
  exact ⟨h.1, h.2.1⟩

/-- An environment in which only callback 1 throws. -/
def envThrow1 : Env where
  cbThrows := fun cb _ => cb == 1
  ctorThrows := false
  wsSendThrows := false

/-- An environment in which only callback 3 throws. -/
def envThrow3 : Env where
  cbThrows := fun cb _ => cb == 3
  ctorThrows := false
  wsSendThrows := false

/-- A frame whose parsed form is `{type: 't'}` (no `data` field, so the
payload is the whole message). -/
def frameT : Json := Json.obj [("type", Json.str "t")]

/-- A connector with two event listeners (1 and 2) and one message
handler (3) registered for type `t`. -/
def twoListenerState : ConnState :=
  runEvents envThrow1 initState
    [Event.evAddListener "t" 1, Event.evAddListener "t" 2,
      Event.evOn "t" 3]

/-- **C8 counterexample.** With listeners 1 and 2 and handler 3 registered
for type `t`, a frame of type `t` on which listener 1 throws produces the
dispatch trace `[listener 1, console.error]`: the exception is caught and
logged, but listener 2 and handler 3 are *not* invoked, contradicting the
claim that the remaining listeners and the handler still run. -/
theorem C8_throwing_listener_skips_rest :
    handleMessageRun envThrow1 twoListenerState (RawFrame.valid frameT) =
      (twoListenerState, [Invoke.listener 1 frameT, Invoke.logError]) ∧
    Invoke.listener 2 frameT ∉
      (handleMessageRun envThrow1 twoListenerState
        (RawFrame.valid frameT)).2 ∧
    Invoke.handlerCall 3 frameT ∉
      (handleMessageRun envThrow1 twoListenerState
        (RawFrame.valid frameT)).2 := by
  refine ⟨rfl, ?_, ?_⟩ <;>
    · rw [show (handleMessageRun envThrow1 twoListenerState
        (RawFrame.valid frameT)).2 =
        [Invoke.listener 1 frameT, Invoke.logError] from rfl]
      simp

theorem runListeners_ok (env : Env) (cbs : List Nat) (p : Json)
    (h : ∀ cb ∈ cbs, env.cbThrows cb p = false) :
    runListeners env cbs p =
      (cbs.map (fun cb => Invoke.listener cb p), false) := by
  induction cbs with
  | nil => rfl
  | cons c rest ih =>
      have hc : env.cbThrows c p = false := h c (List.mem_cons_self _ _)
      simp only [runListeners, hc, Bool.false_eq_true, if_false,
        ih (fun cb hm => h cb (List.mem_cons_of_mem _ hm)), List.map]

theorem runListeners_throw_at (env : Env) (pre post : List Nat) (c : Nat)
    (p : Json)
    (hpre : ∀ cb ∈ pre, env.cbThrows cb p = false)
    (hc : env.cbThrows c p = true) :
    runListeners env (pre ++ c :: post) p =
      (pre.map (fun cb => Invoke.listener cb p) ++ [Invoke.listener c p],
        true) := by
  induction pre with
  | nil => simp [runListeners, hc]
  | cons a rest ih =>
      have ha : env.cbThrows a p = false := hpre a (List.mem_cons_self _ _)
      simp only [List.cons_append, runListeners, ha, Bool.false_eq_true,
        if_false, List.append_eq,
        ih (fun cb hm => hpre cb (List.mem_cons_of_mem _ hm)),
        List.map, List.cons_append]

/-- **C8 (amended).** Exceptions thrown by listeners or handlers during
dispatch are caught by `handleMessage`'s try/catch and logged — the state
is unchanged and subsequent frames dispatch exactly as before — but a
throwing event-listener callback aborts the `emit` loop: the listeners
after it and the registered message handler are *not* invoked for that
frame.  A throwing message handler (which runs last) is likewise caught
and logged without affecting the state. -/
theorem C8_exception_caught_but_dispatch_aborted (env : Env)
    (s : ConnState) (j : Json) (t : String)
    (htype : msgTypeStr j = some t) :
    (∀ pre c post,
      mapGet s.eventListeners t = some (pre ++ c :: post) →
      (∀ cb ∈ pre, env.cbThrows cb (msgPayload j) = false) →
      env.cbThrows c (msgPayload j) = true →
      handleMessageRun env s (RawFrame.valid j) =
        (s, pre.map (fun cb => Invoke.listener cb (msgPayload j)) ++
          [Invoke.listener c (msgPayload j), Invoke.logError])) ∧
    (∀ cbs hcb,
      mapGet s.eventListeners t = some cbs →
      (∀ cb ∈ cbs, env.cbThrows cb (msgPayload j) = false) →
      mapGet s.messageHandlers t = some (Handler.user hcb) →
      env.cbThrows hcb (msgPayload j) = true →
      handleMessageRun env s (RawFrame.valid j) =
        (s, cbs.map (fun cb => Invoke.listener cb (msgPayload j)) ++
          [Invoke.handlerCall hcb (msgPayload j), Invoke.logError])) := by
  constructor
  · intro pre c post hls hpre hc
    simp only [handleMessageRun, htype, emitRun, hls,
      runListeners_throw_at env pre post c (msgPayload j) hpre hc,
      if_true, List.append_assoc, List.cons_append, List.nil_append]
  · intro cbs hcb hls hok hh hthrow
    simp only [handleMessageRun, htype, emitRun, hls,
      runListeners_ok env cbs (msgPayload j) hok, Bool.false_eq_true,
      if_false, hh, hthrow, if_true, List.append_assoc, List.cons_append,
      List.nil_append]

theorem C8_exception_caught_but_dispatch_aborted_witness :
    handleMessageRun envThrow1 twoListenerState (RawFrame.valid frameT) =
      (twoListenerState, [Invoke.listener 1 frameT, Invoke.logError]) ∧
    handleMessageRun envThrow3 twoListenerState (RawFrame.valid frameT) =
      (twoListenerState,
        [Invoke.listener 1 frameT, Invoke.listener 2 frameT,
          Invoke.handlerCall 3 frameT, Invoke.logError]) := by
  have h1 := (C8_exception_caught_but_dispatch_aborted envThrow1
    twoListenerState frameT "t" rfl).1 [] 1 [2] rfl
    (by intro cb hm; simp at hm) rfl
  have h2 := (C8_exception_caught_but_dispatch_aborted envThrow3
    twoListenerState frameT "t" rfl).2 [1, 2] 3 rfl
    (by intro cb hm; fin_cases hm <;> rfl) rfl rfl
  exact ⟨h1, h2⟩

/-- A `connect()` promise orphaned by an asynchronous connection failure:
it is still pending, its ghost id is already allocated, and every socket
tied to it has fired `close` without ever opening — so nothing can ever
settle it. -/
def deadConn (s : ConnState) (pid : Nat) : Prop :=
  getConn s pid = some CPromise.pending ∧
  pid < s.nextConnectId ∧
  ∀ sck ∈ s.sockets, sck.promiseId = pid → sck.closeFired = true

theorem deadConn_connectRun (env : Env) (s : ConnState) (pid : Nat)
    (h : deadConn s pid) : deadConn (connectRun env s) pid := by
  obtain ⟨hp, hlt, hso⟩ := h
  by_cases hc : env.ctorThrows
  · refine ⟨?_, ?_, ?_⟩
    · simp only [connectRun, hc, if_true]
      exact lookupNat_append_left _ _ _ _ hp
    · simp only [connectRun, hc, if_true]
      omega
    · simp only [connectRun, hc, if_true]
      exact hso
  · refine ⟨?_, ?_, ?_⟩
    · simp only [connectRun, hc, Bool.false_eq_true, if_false]
      exact lookupNat_append_left _ _ _ _ hp
    · simp only [connectRun, hc, Bool.false_eq_true, if_false]
      omega
    · simp only [connectRun, hc, Bool.false_eq_true, if_false]
      intro sck hm hpid
      rcases List.mem_append.mp hm with hm | hm
      · exact hso sck hm hpid
      · rcases List.mem_singleton.mp hm with rfl
        simp at hpid
        omega

theorem deadConn_attemptReconnectRun (s : ConnState) (pid : Nat)
    (h : deadConn s pid) : deadConn (attemptReconnectRun s) pid := by
  unfold attemptReconnectRun
  split
  · exact h
  · exact h

theorem deadConn_step (env : Env) (s : ConnState) (e : Event) (pid : Nat)
    (h : deadConn s pid) : deadConn (step env s e) pid := by
  obtain ⟨hp, hlt, hso⟩ := h
  cases e with
  | evConnect => exact deadConn_connectRun env s pid ⟨hp, hlt, hso⟩
  | evReconnectTimer k =>
      show deadConn (reconnectTimerRun env s k) pid
      unfold reconnectTimerRun
      split
      · exact deadConn_connectRun env _ pid ⟨hp, hlt, hso⟩
      · exact ⟨hp, hlt, hso⟩
  | evOpen i =>
      show deadConn (socketOpenRun env s i) pid
      unfold socketOpenRun
      cases hsk : s.sockets[i]? with
      | none => exact ⟨hp, hlt, hso⟩
      | some sck =>
          simp only
          by_cases hfired : sck.openFired || sck.closeFired
          · simp only [hfired, if_true]
            exact ⟨hp, hlt, hso⟩
          · simp only [hfired, Bool.false_eq_true, if_false]
            have hmem : sck ∈ s.sockets := by
              have := List.getElem?_eq_some_iff.mp hsk
              obtain ⟨hlen, hget⟩ := this
              exact hget ▸ List.getElem_mem _
            have hne : sck.promiseId ≠ pid := by
              intro heq
              have := hso sck hmem heq
              simp [this] at hfired
            have hsockets : ∀ x ∈ s.sockets.set i { sck with openFired := true },
                x.promiseId = pid → x.closeFired = true := by
              intro x hm hx
              rcases List.mem_or_eq_of_mem_set hm with hm | rfl
              · exact hso x hm hx
              · exact absurd hx hne
            split
            · exact ⟨hp, hlt, hsockets⟩
            · refine ⟨?_, hlt, hsockets⟩
              show lookupNat (settleConn _ sck.promiseId CPromise.resolvedOk)
                pid = _
              rw [lookupNat_settleConn_ne _ _ _ _ (fun hh => hne hh.symm)]
              exact hp
  | evClose i =>
      show deadConn (socketCloseRun env s i) pid
      unfold socketCloseRun
      cases hsk : s.sockets[i]? with
      | none => exact ⟨hp, hlt, hso⟩
      | some sck =>
          simp only
          by_cases hfired : sck.closeFired
          · simp only [hfired, if_true]
            exact ⟨hp, hlt, hso⟩
          · simp only [hfired, Bool.false_eq_true, if_false]
            have hsockets : ∀ x ∈ s.sockets.set i { sck with closeFired := true },
                x.promiseId = pid → x.closeFired = true := by
              intro x hm hx
              rcases List.mem_or_eq_of_mem_set hm with hm | rfl
              · exact hso x hm hx
              · rfl
            split
            · exact ⟨hp, hlt, hsockets⟩
            · exact deadConn_attemptReconnectRun _ _ ⟨hp, hlt, hsockets⟩
  | evError i err => exact ⟨hp, hlt, hso⟩
  | evRecv f =>
      show deadConn ((handleMessageRun env s f).1) pid
      simp only [handleMessageRun]
      (repeat' split) <;> exact ⟨hp, hlt, hso⟩
  | evTimer cid =>
      show deadConn (timerFireRun s cid) pid
      simp only [timerFireRun]
      (repeat' split) <;> exact ⟨hp, hlt, hso⟩
  | evSend cmd =>
      show deadConn (sendMessageRun env s cmd) pid
      simp only [sendMessageRun]
      (repeat' split) <;> exact ⟨hp, hlt, hso⟩
  | evOn t cb => exact ⟨hp, hlt, hso⟩
  | evAddListener e' cb => exact ⟨hp, hlt, hso⟩
  | evDisconnect =>
      show deadConn (disconnectRun s) pid
      unfold disconnectRun
      (repeat' split) <;> exact ⟨hp, hlt, hso⟩

theorem deadConn_runEvents (env : Env) (s : ConnState) (pid : Nat)
    (es : List Event) (h : deadConn s pid) :
    getConn (runEvents env s es) pid = some CPromise.pending := by
  induction es generalizing s with
  | nil => exact h.1
  | cons e es ih => exact ih (step env s e) (deadConn_step env s e pid h)

/-- **C10.** The promise returned by `connect()` settles in exactly two
ways: `resolve()` runs in the socket's `onopen` callback, and `reject`
runs in the catch around the synchronous `new WebSocket` construction.
An attempt that fails asynchronously — the socket closes without ever
opening — leaves the promise pending forever: no later event (including
the reconnections that create fresh sockets with fresh promises) can
settle it. -/
theorem C10_connect_promise_settlement (env : Env) (s : ConnState)
    (hfreshC : lookupNat s.connectPromises s.nextConnectId = none) :
    (env.ctorThrows = false →
      getConn (connectRun env s) s.nextConnectId = some CPromise.pending ∧
      (connectRun env s).wsField = some s.sockets.length ∧
      (connectRun env s).sockets[s.sockets.length]? =
        some (Socket.mk s.nextConnectId false false)) ∧
    (env.ctorThrows = true →
      getConn (connectRun env s) s.nextConnectId =
        some CPromise.rejectedErr) ∧
    (∀ i pid, s.sockets[i]? = some (Socket.mk pid false false) →
      getConn s pid = some CPromise.pending →
      (∀ cbs, mapGet s.eventListeners "connected" = some cbs →
        ∀ cb ∈ cbs, env.cbThrows cb Json.null = false) →
      getConn (step env s (Event.evOpen i)) pid =
        some CPromise.resolvedOk) ∧
    (∀ pid es, deadConn s pid →
      getConn (runEvents env s es) pid = some CPromise.pending) := by
  refine ⟨?_, ?_, ?_, ?_⟩
  · intro hc
    refine ⟨?_, ?_, ?_⟩
    · simp only [connectRun, hc, Bool.false_eq_true, if_false]
      show lookupNat (s.connectPromises ++
        [(s.nextConnectId, CPromise.pending)]) s.nextConnectId = _
      rw [lookupNat_append_right _ _ _ hfreshC]
      simp [lookupNat]
    · simp only [connectRun, hc, Bool.false_eq_true, if_false]
    · simp only [connectRun, hc, Bool.false_eq_true, if_false]
      exact List.getElem?_concat_length _ _
  · intro hc
    simp only [connectRun, hc, if_true]
    show lookupNat (s.connectPromises ++
      [(s.nextConnectId, CPromise.rejectedErr)]) s.nextConnectId = _
    rw [lookupNat_append_right _ _ _ hfreshC]
    simp [lookupNat]
  · intro i pid hsock hpend hnothrow
    show getConn (socketOpenRun env s i) pid = _
    unfold socketOpenRun
    rw [hsock]
    simp only [Bool.or_self, Bool.false_eq_true, if_false]
    have hemit : (emitRun env
        { s with
            sockets := s.sockets.set i
              { Socket.mk pid false false with openFired := true },
            connected := true, reconnectAttempts := 0 }
        "connected" Json.null).2 = false := by
      unfold emitRun
      cases hmg : mapGet s.eventListeners "connected" with
      | none => rfl
      | some cbs =>
          exact runListeners_nothrow env cbs Json.null (hnothrow cbs hmg)
    rw [hemit]
    simp only [Bool.false_eq_true, if_false]
    show lookupNat (settleConn s.connectPromises pid CPromise.resolvedOk)
      pid = _
    rw [lookupNat_settleConn_self]
    rw [show lookupNat s.connectPromises pid = some CPromise.pending
      from hpend]
    simp [CPromise.isPending]
  · intro pid es hdead
    exact deadConn_runEvents env s pid es hdead

/-- An environment in which `new WebSocket` throws synchronously. -/
def envCtorThrows : Env where
  cbThrows := fun _ _ => false
  ctorThrows := true
  wsSendThrows := false

/-- A connector whose first socket closed without ever opening. -/
def deadSocketState : ConnState :=
  runEvents envDefault initState [Event.evConnect, Event.evClose 0]

theorem C10_connect_promise_settlement_witness :
    getConn (connectRun envDefault initState) 0 = some CPromise.pending ∧
    getConn (connectRun envCtorThrows initState) 0 =
      some CPromise.rejectedErr ∧
    getConn connState1 0 = some CPromise.resolvedOk ∧
    getConn (runEvents envDefault deadSocketState
      [Event.evReconnectTimer 0, Event.evOpen 1]) 0 =
      some CPromise.pending := by
  have h1 := C10_connect_promise_settlement envDefault initState rfl
  have h2 := C10_connect_promise_settlement envCtorThrows initState rfl
  have h3 := C10_connect_promise_settlement envDefault deadSocketState rfl
  refine ⟨(h1.1 rfl).1, h2.2.1 rfl, ?_, ?_⟩
  · have h0 := C10_connect_promise_settlement envDefault
      (connectRun envDefault initState) rfl
    exact h0.2.2.1 0 0 rfl rfl (by
      intro cbs hcbs
      rw [show mapGet (connectRun envDefault initState).eventListeners
        "connected" = none from rfl] at hcbs
      cases hcbs)
  · exact h3.2.2.2 0 [Event.evReconnectTimer 0, Event.evOpen 1]
      ⟨rfl, by decide, by
        intro sck hm hpid
        rw [show deadSocketState.sockets = [Socket.mk 0 false true]
          from rfl] at hm
        rcases List.mem_singleton.mp hm with rfl
        rfl⟩

theorem find?_filter_congr {α : Type} (l : List α) (p q : α → Bool)
    (h : ∀ x, p x = true → q x = true) :
    (l.filter q).find? p = l.find? p := by
  induction l with
  | nil => rfl
  | cons a l ih =>
      by_cases hq : q a = true
      · rw [List.filter_cons_of_pos hq]
        by_cases hp : p a = true
        · rw [List.find?_cons_of_pos _ hp, List.find?_cons_of_pos _ hp]
        · rw [List.find?_cons_of_neg _ (by simpa using hp),
            List.find?_cons_of_neg _ (by simpa using hp)]
          exact ih
      · have hp : ¬ p a = true := fun hpa => hq (h a hpa)
        rw [List.filter_cons_of_neg (by simpa using hq),
          List.find?_cons_of_neg _ (by simpa using hp)]
        exact ih

theorem find?_append_some {α : Type} (l₁ l₂ : List α) (p : α → Bool)
    (x : α) (h : l₁.find? p = some x) : (l₁ ++ l₂).find? p = some x := by
  induction l₁ with
  | nil => simp [List.find?] at h
  | cons a l ih =>
      by_cases hp : p a = true
      · rw [List.find?_cons_of_pos _ hp] at h
        rw [List.cons_append, List.find?_cons_of_pos _ hp]
        exact h
      · rw [List.find?_cons_of_neg _ (by simpa using hp)] at h
        rw [List.cons_append, List.find?_cons_of_neg _ (by simpa using hp)]
        exact ih h

theorem find?_append_none {α : Type} (l₁ l₂ : List α) (p : α → Bool)
    (h : l₁.find? p = none) : (l₁ ++ l₂).find? p = l₂.find? p := by
  induction l₁ with
  | nil => simp
  | cons a l ih =>
      by_cases hp : p a = true
      · rw [List.find?_cons_of_pos _ hp] at h
        cases h
      · rw [List.find?_cons_of_neg _ (by simpa using hp)] at h
        rw [List.cons_append, List.find?_cons_of_neg _ (by simpa using hp)]
        exact ih h

theorem mapGet_set_cases {α : Type} (m : List (String × α)) (k t : String)
    (v w : α) (h : mapGet (mapSet m k v) t = some w) :
    (t = k ∧ w = v) ∨ (t ≠ k ∧ mapGet m t = some w) := by
  by_cases ht : t = k
  · subst ht
    rw [mapGet_set_self] at h
    exact Or.inl ⟨rfl, (Option.some.inj h).symm⟩
  · rw [mapGet_set_ne _ _ _ _ ht] at h
    exact Or.inr ⟨ht, h⟩

theorem mapGet_delete_cases {α : Type} (m : List (String × α))
    (k t : String) (w : α) (h : mapGet (mapDelete m k) t = some w) :
    mapGet m t = some w := by
  by_cases ht : t = k
  · subst ht
    rw [mapGet_delete_self] at h
    cases h
  · rw [mapGet_delete_ne _ _ _ ht] at h
    exact h

/-- The situation of a superseded `sendMessage` call `cid`: its promise is
pending, its timeout (captured reply type `rt`, delay `d`) is still armed,
but its waiter closure no longer sits anywhere in the handler table (a
later registration displaced it), and its ghost id is in the past. -/
def superseded (s : ConnState) (cid : Nat) (rt : String) (d : Nat) : Prop :=
  getCall s cid = some PromiseState.pending ∧
  s.timers.find? (fun tm => tm.callId = cid) =
    some (SendTimer.mk cid rt d) ∧
  (∀ t rt', mapGet s.messageHandlers t ≠
    some (Handler.waiter cid rt')) ∧
  cid < s.nextCallId

theorem superseded_attemptReconnectRun (s : ConnState) (cid : Nat)
    (rt : String) (d : Nat) (h : superseded s cid rt d) :
    superseded (attemptReconnectRun s) cid rt d := by
  unfold attemptReconnectRun
  split
  · exact h
  · exact h

/-- Once a call is superseded, every event other than its own timeout
firing preserves that situation: nothing else can settle its promise,
clear its timer, or re-register its waiter. -/
theorem superseded_step (env : Env) (s : ConnState) (e : Event)
    (cid : Nat) (rt : String) (d : Nat)
    (h : superseded s cid rt d) (hne : e ≠ Event.evTimer cid) :
    superseded (step env s e) cid rt d := by
  obtain ⟨hp, ht, hw, hlt⟩ := h
  cases e with
  | evConnect =>
      show superseded (connectRun env s) cid rt d
      unfold connectRun
      split
      · exact ⟨hp, ht, hw, hlt⟩
      · exact ⟨hp, ht, hw, hlt⟩
  | evReconnectTimer k =>
      show superseded (reconnectTimerRun env s k) cid rt d
      unfold reconnectTimerRun connectRun
      (repeat' split) <;> exact ⟨hp, ht, hw, hlt⟩
  | evOpen i =>
      show superseded (socketOpenRun env s i) cid rt d
      simp only [socketOpenRun]
      (repeat' split) <;> exact ⟨hp, ht, hw, hlt⟩
  | evClose i =>
      show superseded (socketCloseRun env s i) cid rt d
      simp only [socketCloseRun]
      (repeat' split) <;>
        first
          | exact ⟨hp, ht, hw, hlt⟩
          | exact superseded_attemptReconnectRun _ _ _ _ ⟨hp, ht, hw, hlt⟩
  | evError i err => exact ⟨hp, ht, hw, hlt⟩
  | evOn t cb =>
      show superseded (onRun s t cb) cid rt d
      refine ⟨hp, ht, ?_, hlt⟩
      intro t' rt' hcontra
      rcases mapGet_set_cases _ _ _ _ _ hcontra with ⟨_, hv⟩ | ⟨_, hv⟩
      · cases hv
      · exact hw t' rt' hv
  | evAddListener e' cb => exact ⟨hp, ht, hw, hlt⟩
  | evDisconnect =>
      show superseded (disconnectRun s) cid rt d
      unfold disconnectRun
      split <;> exact ⟨hp, ht, hw, hlt⟩
  | evTimer cid' =>
      have hcc : cid' ≠ cid := fun hh => hne (by rw [hh])
      show superseded (timerFireRun s cid') cid rt d
      unfold timerFireRun
      split
      · exact ⟨hp, ht, hw, hlt⟩
      · refine ⟨?_, ?_, ?_, hlt⟩
        · show lookupNat (settleCall s.callPromises cid' _) cid = _
          rw [lookupNat_settleCall_ne _ _ _ _ (fun hh => hcc hh.symm)]
          exact hp
        · show (s.timers.filter _).find? _ = _
          rw [find?_filter_congr]
          · exact ht
          · intro x hx
            simp only [decide_eq_true_eq] at hx
            simp only [ne_eq, decide_not, Bool.not_eq_true',
              decide_eq_false_iff_not]
            omega
        · intro t' rt' hcontra
          exact hw t' rt' (mapGet_delete_cases _ _ _ _ hcontra)
  | evRecv f =>
      show superseded ((handleMessageRun env s f).1) cid rt d
      simp only [handleMessageRun]
      (repeat' split) <;>
        first
          | exact ⟨hp, ht, hw, hlt⟩
          | (rename_i cid' rt' heq
             have hcc : cid' ≠ cid := fun hh => hw _ rt' (hh ▸ heq)
             refine ⟨?_, ?_, ?_, hlt⟩
             · show lookupNat (settleCall s.callPromises cid' _) cid = _
               rw [lookupNat_settleCall_ne _ _ _ _ (fun hh => hcc hh.symm)]
               exact hp
             · show (s.timers.filter _).find? _ = _
               rw [find?_filter_congr]
               · exact ht
               · intro x hx
                 simp only [decide_eq_true_eq] at hx
                 simp only [ne_eq, decide_not, Bool.not_eq_true',
                   decide_eq_false_iff_not]
                 omega
             · intro t' rt'' hcontra
               exact hw t' rt'' (mapGet_delete_cases _ _ _ _ hcontra))
  | evSend cmd =>
      show superseded (sendMessageRun env s cmd) cid rt d
      simp only [sendMessageRun]
      split
      · exact ⟨lookupNat_append_left _ _ _ _ hp, ht, hw,
          by show cid < s.nextCallId + 1; omega⟩
      · split
        · refine ⟨lookupNat_append_left _ _ _ _ hp,
            find?_append_some _ _ _ _ ht, ?_,
            by show cid < s.nextCallId + 1; omega⟩
          intro t' rt' hcontra
          rcases mapGet_set_cases _ _ _ _ _ hcontra with ⟨_, hv⟩ | ⟨_, hv⟩
          · have h1 := (Handler.waiter.inj hv).1
            omega
          · exact hw t' rt' hv
        · refine ⟨?_, ?_, ?_, by show cid < s.nextCallId + 1; omega⟩
          · show lookupNat (settleCall _ s.nextCallId _) cid = _
            rw [lookupNat_settleCall_ne _ _ _ _ (by omega)]
            exact lookupNat_append_left _ _ _ _ hp
          · show (_ : List SendTimer).find? _ = _
            rw [find?_filter_congr]
            · exact find?_append_some _ _ _ _ ht
            · intro x hx
              simp only [decide_eq_true_eq] at hx
              simp only [ne_eq, decide_not, Bool.not_eq_true',
                decide_eq_false_iff_not]
              omega
          · intro t' rt' hcontra
            have hcontra2 := mapGet_delete_cases _ _ _ _ hcontra
            rcases mapGet_set_cases _ _ _ _ _ hcontra2 with ⟨_, hv⟩ | ⟨_, hv⟩
            · have h1 := (Handler.waiter.inj hv).1
              omega
            · exact hw t' rt' hv

theorem superseded_runEvents (env : Env) (s : ConnState) (es : List Event)
    (cid : Nat) (rt : String) (d : Nat)
    (h : superseded s cid rt d) (hne : Event.evTimer cid ∉ es) :
    superseded (runEvents env s es) cid rt d := by
  induction es generalizing s with
  | nil => exact h
  | cons e es ih =>
      have h1 : e ≠ Event.evTimer cid := fun hh =>
        hne (hh ▸ List.mem_cons_self _ _)
      exact ih (step env s e) (superseded_step env s e cid rt d h h1)
        (fun hm => hne (List.mem_cons_of_mem _ hm))

/-- **C1.** Two `sendMessage` calls whose actions map to the same inferred
reply type: the second call's waiter registration replaces the first's in
the handler table; when an inbound message of that type then arrives
(while both calls are outstanding), only the second call's promise
resolves with its payload, the first stays pending, and the first settles
only when its own timeout fires — any event run avoiding that timer
leaves it pending, and the timer firing then rejects it with the timeout
error. -/
theorem C1_same_reply_type_supersedes (env : Env) (s : ConnState)
    (cmd1 cmd2 : Command) (j : Json)
    (hconn : s.connected = true) (hok : sendOk env s = true)
    (hfreshT : ∀ tm ∈ s.timers, tm.callId < s.nextCallId)
    (hfreshP1 : lookupNat s.callPromises s.nextCallId = none)
    (hfreshP2 : lookupNat s.callPromises (s.nextCallId + 1) = none)
    (hnowait : ∀ t rt', mapGet s.messageHandlers t ≠
      some (Handler.waiter s.nextCallId rt'))
    (hsame : inferResponseType cmd2.action = inferResponseType cmd1.action)
    (htype : msgTypeStr j = some (inferResponseType cmd1.action))
    (hnl : mapGet s.eventListeners (inferResponseType cmd1.action) = none) :
    mapGet (sendMessageRun env (sendMessageRun env s cmd1)
        cmd2).messageHandlers (inferResponseType cmd1.action) =
      some (Handler.waiter (s.nextCallId + 1)
        (inferResponseType cmd1.action)) ∧
    getCall ((handleMessageRun env (sendMessageRun env
        (sendMessageRun env s cmd1) cmd2) (RawFrame.valid j)).1)
      (s.nextCallId + 1) = some (PromiseState.resolved (msgPayload j)) ∧
    getCall ((handleMessageRun env (sendMessageRun env
        (sendMessageRun env s cmd1) cmd2) (RawFrame.valid j)).1)
      s.nextCallId = some PromiseState.pending ∧
    (∀ es, Event.evTimer s.nextCallId ∉ es →
      getCall (runEvents env ((handleMessageRun env (sendMessageRun env
          (sendMessageRun env s cmd1) cmd2) (RawFrame.valid j)).1) es)
        s.nextCallId = some PromiseState.pending) ∧
    (∀ es, Event.evTimer s.nextCallId ∉ es →
      getCall (step env (runEvents env ((handleMessageRun env
          (sendMessageRun env (sendMessageRun env s cmd1) cmd2)
          (RawFrame.valid j)).1) es) (Event.evTimer s.nextCallId))
        s.nextCallId = some (PromiseState.rejected ConnErr.timedOut)) := by
  have hok' := hok
  simp only [sendOk, hconn, Bool.true_and, Bool.and_eq_true,
    Bool.not_eq_true'] at hok'
  obtain ⟨hws, hthrow⟩ := hok'
  have hrun1 : sendMessageRun env s cmd1 =
      { s with
          timers := s.timers ++
            [SendTimer.mk s.nextCallId (inferResponseType cmd1.action)
              (effectiveTimeout cmd1)],
          messageHandlers := mapSet s.messageHandlers
            (inferResponseType cmd1.action)
            (Handler.waiter s.nextCallId (inferResponseType cmd1.action)),
          callPromises := s.callPromises ++
            [(s.nextCallId, PromiseState.pending)],
          nextCallId := s.nextCallId + 1 } := by
    simp [sendMessageRun, sendOk, hconn, hws, hthrow]
  have hrun2 : sendMessageRun env (sendMessageRun env s cmd1) cmd2 =
      { s with
          timers := (s.timers ++
            [SendTimer.mk s.nextCallId (inferResponseType cmd1.action)
              (effectiveTimeout cmd1)]) ++
            [SendTimer.mk (s.nextCallId + 1)
              (inferResponseType cmd1.action) (effectiveTimeout cmd2)],
          messageHandlers := mapSet (mapSet s.messageHandlers
            (inferResponseType cmd1.action)
            (Handler.waiter s.nextCallId (inferResponseType cmd1.action)))
            (inferResponseType cmd1.action)
            (Handler.waiter (s.nextCallId + 1)
              (inferResponseType cmd1.action)),
          callPromises := (s.callPromises ++
            [(s.nextCallId, PromiseState.pending)]) ++
            [(s.nextCallId + 1, PromiseState.pending)],
          nextCallId := s.nextCallId + 2 } := by
    rw [hrun1]
    simp [sendMessageRun, sendOk, hconn, hws, hthrow, hsame]
  have hmh2 : mapGet (sendMessageRun env (sendMessageRun env s cmd1)
      cmd2).messageHandlers (inferResponseType cmd1.action) =
      some (Handler.waiter (s.nextCallId + 1)
        (inferResponseType cmd1.action)) := by
    rw [hrun2]
    exact mapGet_set_self _ _ _
  have hkey : (handleMessageRun env (sendMessageRun env
      (sendMessageRun env s cmd1) cmd2) (RawFrame.valid j)).1 =
      { s with
          timers := (((s.timers ++
            [SendTimer.mk s.nextCallId (inferResponseType cmd1.action)
              (effectiveTimeout cmd1)]) ++
            [SendTimer.mk (s.nextCallId + 1)
              (inferResponseType cmd1.action)
              (effectiveTimeout cmd2)]).filter
            (fun tm => tm.callId ≠ s.nextCallId + 1)),
          messageHandlers := mapDelete (mapSet (mapSet s.messageHandlers
            (inferResponseType cmd1.action)
            (Handler.waiter s.nextCallId (inferResponseType cmd1.action)))
            (inferResponseType cmd1.action)
            (Handler.waiter (s.nextCallId + 1)
              (inferResponseType cmd1.action)))
            (inferResponseType cmd1.action),
          callPromises := settleCall ((s.callPromises ++
            [(s.nextCallId, PromiseState.pending)]) ++
            [(s.nextCallId + 1, PromiseState.pending)]) (s.nextCallId + 1)
            (PromiseState.resolved (msgPayload j)),
          nextCallId := s.nextCallId + 2 } := by
    rw [hrun2]
    simp only [handleMessageRun, htype, emitRun, hnl, mapGet_set_self,
      Bool.false_eq_true, if_false]
  have hlook2 : lookupNat ((s.callPromises ++
      [(s.nextCallId, PromiseState.pending)]) ++
      [(s.nextCallId + 1, PromiseState.pending)]) (s.nextCallId + 1) =
      some PromiseState.pending := by
    rw [lookupNat_append_right, lookupNat]
    · simp
    · rw [lookupNat_append_right _ _ _ hfreshP2]
      simp [lookupNat]
  have hlook1 : lookupNat ((s.callPromises ++
      [(s.nextCallId, PromiseState.pending)]) ++
      [(s.nextCallId + 1, PromiseState.pending)]) s.nextCallId =
      some PromiseState.pending := by
    apply lookupNat_append_left
    rw [lookupNat_append_right _ _ _ hfreshP1]
    simp [lookupNat]
  have hres2 : getCall ((handleMessageRun env (sendMessageRun env
      (sendMessageRun env s cmd1) cmd2) (RawFrame.valid j)).1)
      (s.nextCallId + 1) = some (PromiseState.resolved (msgPayload j)) := by
    rw [hkey]
    show lookupNat (settleCall _ _ _) _ = _
    rw [lookupNat_settleCall_self, hlook2]
    simp [PromiseState.isPending]
  have hres1 : getCall ((handleMessageRun env (sendMessageRun env
      (sendMessageRun env s cmd1) cmd2) (RawFrame.valid j)).1)
      s.nextCallId = some PromiseState.pending := by
    rw [hkey]
    show lookupNat (settleCall _ _ _) _ = _
    rw [lookupNat_settleCall_ne _ _ _ _ (by omega), hlook1]
  have hsup : superseded ((handleMessageRun env (sendMessageRun env
      (sendMessageRun env s cmd1) cmd2) (RawFrame.valid j)).1)
      s.nextCallId (inferResponseType cmd1.action)
      (effectiveTimeout cmd1) := by
    refine ⟨hres1, ?_, ?_, ?_⟩
    · rw [hkey]
      show (List.filter _ _).find? _ = _
      rw [find?_filter_congr]
      · apply find?_append_some
        rw [find?_append_none]
        · simp [List.find?]
        · rw [List.find?_eq_none]
          intro x hx
          simp only [decide_eq_true_eq]
          exact Nat.ne_of_lt (hfreshT x hx) |>.symm |> fun hh => fun he =>
            hh he.symm
      · intro x hx
        simp only [decide_eq_true_eq] at hx
        simp only [ne_eq, decide_not, Bool.not_eq_true',
          decide_eq_false_iff_not]
        omega
    · rw [hkey]
      intro t' rt' hcontra
      have h2 := mapGet_delete_cases _ _ _ _ hcontra
      rcases mapGet_set_cases _ _ _ _ _ h2 with ⟨_, hv⟩ | ⟨hne', h3⟩
      · have h1 := (Handler.waiter.inj hv).1
        omega
      · rw [mapGet_set_ne _ _ _ _ hne'] at h3
        exact hnowait t' rt' h3
    · rw [hkey]
      show s.nextCallId < s.nextCallId + 2
      omega
  refine ⟨hmh2, hres2, hres1, ?_, ?_⟩
  · intro es hes
    exact (superseded_runEvents env _ es _ _ _ hsup hes).1
  · intro es hes
    have h4 := superseded_runEvents env _ es _ _ _ hsup hes
    obtain ⟨hp4, ht4, hw4, hlt4⟩ := h4
    have hp4' : lookupNat (runEvents env ((handleMessageRun env
        (sendMessageRun env (sendMessageRun env s cmd1) cmd2)
        (RawFrame.valid j)).1) es).callPromises s.nextCallId =
        some PromiseState.pending := hp4
    show getCall (timerFireRun _ _) _ = _
    unfold timerFireRun
    rw [ht4]
    show lookupNat (settleCall _ _ _) _ = _
    rw [lookupNat_settleCall_self, hp4']
    simp [PromiseState.isPending]

/-- `start_conversation` and `answer_question` both map to the reply type
`conversation_question`. -/
def convCmd1 : Command := { action := "start_conversation" }

def convCmd2 : Command := { action := "answer_question" }

def convReply : Json :=
  Json.obj [("type", Json.str "conversation_question"),
    ("data", Json.str "q1")]

theorem C1_same_reply_type_supersedes_witness :
    mapGet (sendMessageRun envDefault (sendMessageRun envDefault connState1
        convCmd1) convCmd2).messageHandlers "conversation_question" =
      some (Handler.waiter 1 "conversation_question") ∧
    getCall ((handleMessageRun envDefault (sendMessageRun envDefault
        (sendMessageRun envDefault connState1 convCmd1) convCmd2)
        (RawFrame.valid convReply)).1) 1 =
      some (PromiseState.resolved (Json.str "q1")) ∧
    getCall ((handleMessageRun envDefault (sendMessageRun envDefault
        (sendMessageRun envDefault connState1 convCmd1) convCmd2)
        (RawFrame.valid convReply)).1) 0 = some PromiseState.pending ∧
    getCall (step envDefault ((handleMessageRun envDefault
        (sendMessageRun envDefault (sendMessageRun envDefault connState1
        convCmd1) convCmd2) (RawFrame.valid convReply)).1)
        (Event.evTimer 0)) 0 =
      some (PromiseState.rejected ConnErr.timedOut) := by
  have h := C1_same_reply_type_supersedes envDefault connState1 convCmd1
    convCmd2 convReply rfl rfl
    (by intro tm hm
        rw [show connState1.timers = [] from rfl] at hm
        simp at hm)
    rfl rfl
    (by intro t rt' hc
        rw [show connState1.messageHandlers = ([] : List (String × Handler))
          from rfl] at hc
        simp [mapGet] at hc)
    rfl rfl rfl
  have h5 := h.2.2.2.2 [] (by simp)
  exact ⟨h.1, h.2.1, h.2.2.1, h5⟩
